import Mathlib

/-!
Shallow embedding of `binance_trade_bot/auto_trader.py` (class `AutoTrader`):
the scouting decision engine (`scout`), the two-leg transition executor
(`transaction_through_bridge`), threshold recalibration
(`update_trade_threshold`), and session-state bootstrap
(`initialize_current_coin`).  Prices, fees and ratios are rationals; the
exchange and persistence collaborators are function-valued environment
fields; the database session state is an explicit record threaded through
every operation.  The executor's unbounded `while` retry loop is modelled
with an explicit fuel argument and a dedicated `looping` outcome standing
for "still inside the retry loop after `fuel` attempts".
-/

namespace AutoTrader

/-- A coin row: symbol plus enabled flag (`models.Coin`). -/
structure Coin where
  symbol : String
  enabled : Bool
deriving DecidableEq, Repr

/-- A trading pair row: ordered (from, to) relation carrying a mutable
calibration ratio, `none` while the pair is uncalibrated (`models.Pair`). -/
structure Pair where
  from_coin : Coin
  to_coin : Coin
  ratio : Option ℚ
deriving DecidableEq, Repr

/-- Modelled from the spec: the configuration values consumed by
`AutoTrader` (`config.py` is not among the sources).  Per the bootstrap
contract, `CURRENT_COIN_SYMBOL` is the empty string when no initial coin
is configured. -/
structure Config where
  BRIDGE : Coin
  SCOUT_MULTIPLIER : ℚ
  CURRENT_COIN_SYMBOL : String
  SUPPORTED_COIN_LIST : List String

/-- The exchange collaborator (`BinanceAPIManager`), modelled as pure
lookups.  `buy_alt` additionally takes an attempt index so the executor's
retry loop is expressible: attempt `n` of buying a coin either returns the
fill price or fails with `none`. -/
structure BinanceAPIManager where
  get_ticker_price : String → Option ℚ
  get_fee : Coin → Coin → Bool → ℚ
  sell_alt : Coin → Coin → Option ℚ
  buy_alt : Coin → Coin → Nat → Option ℚ

/-- The ambient collaborators: exchange manager, configuration, and the
`random.choice` source consumed by the bootstrap. -/
structure Env where
  manager : BinanceAPIManager
  config : Config
  random_choice : List String → String

/-- The state threaded through the trader: the held coin symbol recorded
in the database (Session State), the pair table with its calibration
ratios (Ratio Store), and the process-local `best_ratios` ledger, an
insertion-ordered association list mirroring the Python dict. -/
structure TraderState where
  current_coin : Option String
  pairs : List Pair
  best_ratios : List ((String × String) × ℚ)
deriving DecidableEq, Repr

/-- The ticker symbol `coin + bridge` used for price lookups. -/
def ticker_symbol (c bridge : Coin) : String :=
  c.symbol ++ bridge.symbol

/-- `AutoTrader.update_trade_threshold`: for every pair whose destination
is the currently held coin, refetch the source coin's bridge price and, if
available, set `ratio := from_coin_price / current_coin_price`; a pair
whose source price is unavailable is skipped, and a `none` argument makes
the whole call a no-op. -/
def update_trade_threshold (env : Env) (st : TraderState)
    (current_coin_price : Option ℚ) : TraderState :=
  match current_coin_price with
  | none => st
  | some p =>
    { st with pairs := st.pairs.map (fun pair =>
        if some pair.to_coin.symbol = st.current_coin then
          match env.manager.get_ticker_price
              (ticker_symbol pair.from_coin env.config.BRIDGE) with
          | none => pair
          | some from_coin_price => { pair with ratio := some (from_coin_price / p) }
        else pair) }

/-- The buy-leg retry loop of `transaction_through_bridge`: starting at
attempt index `i`, try successive `buy_alt` attempts until one succeeds,
giving up `none` only when the fuel runs out (which models "still
looping", not an abandonment the Python code could perform). -/
def buy_retry (buys : Nat → Option ℚ) : Nat → Nat → Option ℚ
  | _, 0 => none
  | i, fuel + 1 =>
    match buys i with
    | some p => some p
    | none => buy_retry buys (i + 1) fuel

/-- Outcome of one `transaction_through_bridge` call: the sell leg failed
and the method returned `None` leaving state `st` (`aborted`), the buy
retry loop has not yet succeeded within the given fuel (`looping`), or the
swap completed leaving state `st` (`completed`). -/
inductive TransitionResult where
  | aborted (st : TraderState)
  | looping
  | completed (st : TraderState)
deriving DecidableEq, Repr

/-- `AutoTrader.transaction_through_bridge`: sell the source coin into the
bridge; on `None` abort with no state change.  Otherwise retry
`buy_alt` until it succeeds, then record the destination coin as held and
recalibrate thresholds at the acquisition price. -/
def transaction_through_bridge (env : Env) (fuel : Nat) (st : TraderState)
    (pair : Pair) : TransitionResult :=
  if env.manager.sell_alt pair.from_coin env.config.BRIDGE = none then
    TransitionResult.aborted st
  else
    match buy_retry (env.manager.buy_alt pair.to_coin env.config.BRIDGE) 0 fuel with
    | none => TransitionResult.looping
    | some price =>
      let st1 := { st with current_coin := some pair.to_coin.symbol }
      TransitionResult.completed (update_trade_threshold env st1 (some price))

/-- Modelled from the spec: `Database.get_pairs_from` (the persistence
layer is not among the sources) returns the stored pairs whose source coin
is the given held coin, in storage order. -/
def get_pairs_from (st : TraderState) (cc : String) : List Pair :=
  st.pairs.filter (fun p => p.from_coin.symbol = cc)

/-- The fee-adjusted advantage `scout` computes for one viable candidate:
`(raw - fee * SCOUT_MULTIPLIER * raw) - r` where `raw = ccp / ocp` and
`fee` sums the sell-leg and buy-leg fees. -/
def pair_advantage (env : Env) (ccp ocp r : ℚ) (pair : Pair) : ℚ :=
  let coin_opt_coin_ratio := ccp / ocp
  let transaction_fee :=
    env.manager.get_fee pair.from_coin env.config.BRIDGE true
      + env.manager.get_fee pair.to_coin env.config.BRIDGE false
  (coin_opt_coin_ratio
      - transaction_fee * env.config.SCOUT_MULTIPLIER * coin_opt_coin_ratio)
    - r

/-- The `ratio_dict` accumulation loop of `scout`: disabled destinations
and destinations with no bridge price are skipped; an uncalibrated pair
that is reached makes the subtraction `... - pair.ratio` a Python
`TypeError`, modelled as `none` for the whole dict construction. -/
def build_ratio_dict (env : Env) (ccp : ℚ) : List Pair → Option (List (Pair × ℚ))
  | [] => some []
  | pair :: rest =>
    if pair.to_coin.enabled then
      match env.manager.get_ticker_price
          (ticker_symbol pair.to_coin env.config.BRIDGE) with
      | none => build_ratio_dict env ccp rest
      | some ocp =>
        match pair.ratio with
        | none => none
        | some r =>
          (build_ratio_dict env ccp rest).map
            (fun l => (pair, pair_advantage env ccp ocp r pair) :: l)
    else build_ratio_dict env ccp rest

/-- Python's `max(d, key=d.get)` over a nonempty association list: the
first entry attaining the maximum value wins, since a later entry replaces
the running best only when strictly greater. -/
def max_by_value (x : Pair × ℚ) (xs : List (Pair × ℚ)) : Pair × ℚ :=
  xs.foldl (fun b y => if b.2 < y.2 then y else b) x

/-- Membership test on the ledger association list. -/
def ledger_contains (l : List ((String × String) × ℚ)) (k : String × String) : Bool :=
  l.any (fun e => e.1 = k)

/-- Lookup on the ledger association list. -/
def ledger_get (l : List ((String × String) × ℚ)) (k : String × String) : Option ℚ :=
  (l.find? (fun e => e.1 = k)).map Prod.snd

/-- Python-dict assignment on the ledger: an existing key keeps its
insertion position and is overwritten, a new key is appended. -/
def ledger_set (l : List ((String × String) × ℚ)) (k : String × String)
    (v : ℚ) : List ((String × String) × ℚ) :=
  if ledger_contains l k then l.map (fun e => if e.1 = k then (k, v) else e)
  else l ++ [(k, v)]

/-- The `best_ratios` update loop at the end of `scout`: each evaluated
pair's advantage is merged into the ledger under the (from symbol, to
symbol) key, taking the max with any existing entry. -/
def update_best_ratios (l : List ((String × String) × ℚ)) :
    List (Pair × ℚ) → List ((String × String) × ℚ)
  | [] => l
  | (pair, v) :: rest =>
    let k := (pair.from_coin.symbol, pair.to_coin.symbol)
    let l1 :=
      match ledger_get l k with
      | some old => ledger_set l k (max old v)
      | none => ledger_set l k v
    update_best_ratios l1 rest

/-- Outcome of one `scout` cycle: a normal return carrying the pair handed
to the transition executor (if any) and the final state; an uncaught
Python exception (`crash`, from evaluating an uncalibrated pair or a
missing held coin); or fuel exhaustion inside the executor's buy retry
loop (`looping`). -/
inductive ScoutResult where
  | ok (invoked : Option Pair) (st : TraderState)
  | crash
  | looping
deriving DecidableEq, Repr

/-- The tail of `AutoTrader.scout` once `ratio_dict` has been built: keep
the entries with positive advantage; if any remain, invoke the transition
executor on the first maximal one, clear the ledger, and in every case
merge this cycle's advantages into the ledger (into the cleared ledger
when the executor was invoked, into the accumulated one otherwise). -/
def scout_after_dict (env : Env) (fuel : Nat) (st : TraderState)
    (ratio_dict : List (Pair × ℚ)) : ScoutResult :=
  match ratio_dict.filter (fun e => 0 < e.2) with
  | [] =>
    ScoutResult.ok none
      { st with best_ratios := update_best_ratios st.best_ratios ratio_dict }
  | e :: es =>
    let best_pair := (max_by_value e es).1
    match transaction_through_bridge env fuel st best_pair with
    | TransitionResult.looping => ScoutResult.looping
    | TransitionResult.aborted st1 =>
      ScoutResult.ok (some best_pair)
        { st1 with best_ratios := update_best_ratios [] ratio_dict }
    | TransitionResult.completed st1 =>
      ScoutResult.ok (some best_pair)
        { st1 with best_ratios := update_best_ratios [] ratio_dict }

/-- `AutoTrader.scout`: one decision cycle.  Abort quietly when the held
coin's own price is unavailable; build the advantage dict over the pairs
leaving the held coin; then decide and trade via `scout_after_dict`. -/
def scout (env : Env) (fuel : Nat) (st : TraderState) : ScoutResult :=
  match st.current_coin with
  | none => ScoutResult.crash
  | some current_coin =>
    match env.manager.get_ticker_price (current_coin ++ env.config.BRIDGE.symbol) with
    | none => ScoutResult.ok none st
    | some current_coin_price =>
      match build_ratio_dict env current_coin_price (get_pairs_from st current_coin) with
      | none => ScoutResult.crash
      | some ratio_dict => scout_after_dict env fuel st ratio_dict

/-- Outcome of `initialize_current_coin`: `fatal` is the `sys.exit` path
(process terminates, nothing written), `ok st purchased` is a normal
return with the resulting state and, in `purchased`, the coin bought
against the bridge during bootstrap, if any. -/
inductive InitResult where
  | fatal
  | ok (st : TraderState) (purchased : Option String)
deriving DecidableEq, Repr

/-- `AutoTrader.initialize_current_coin`: when no held coin is recorded,
take the configured symbol, or a random pick from the supported list when
unconfigured; exit fatally if the symbol is not supported; otherwise
record it as held and, only in the unconfigured (random) case, buy it
against the bridge. -/
def initialize_current_coin (env : Env) (st : TraderState) : InitResult :=
  match st.current_coin with
  | some _ => InitResult.ok st none
  | none =>
    let current_coin_symbol :=
      if env.config.CURRENT_COIN_SYMBOL = "" then
        env.random_choice env.config.SUPPORTED_COIN_LIST
      else env.config.CURRENT_COIN_SYMBOL
    if current_coin_symbol ∈ env.config.SUPPORTED_COIN_LIST then
      let st1 := { st with current_coin := some current_coin_symbol }
      if env.config.CURRENT_COIN_SYMBOL = "" then
        InitResult.ok st1 (some current_coin_symbol)
      else InitResult.ok st1 none
    else InitResult.fatal

/-! ### Concrete instances used by witnesses and counterexamples -/

/-- Enabled coin `A`. -/
def coinA : Coin := { symbol := ("A"), enabled := true }

/-- Enabled coin `B`. -/
def coinB : Coin := { symbol := ("B"), enabled := true }

/-- The bridge coin. -/
def coinUSDT : Coin := { symbol := ("USDT"), enabled := true }

/-- The spec's worked example pair `A -> B` calibrated at `0.2`. -/
def examplePair : Pair := { from_coin := coinA, to_coin := coinB, ratio := some (1/5) }

/-- Configuration of the worked example: `USDT` bridge, multiplier `5`,
no initial coin configured. -/
def exampleConfig : Config :=
  { BRIDGE := coinUSDT
    SCOUT_MULTIPLIER := 5
    CURRENT_COIN_SYMBOL := ("")
    SUPPORTED_COIN_LIST := [("A"), ("B")] }

/-- Exchange of the worked example: `A` quotes at `100`, `B` at `80`,
every fee is `0.001`, selling succeeds, buying fills at `80` on the first
attempt. -/
def exampleManager : BinanceAPIManager :=
  { get_ticker_price := fun s =>
      if s = ("AUSDT") then some 100 else if s = ("BUSDT") then some 80 else none
    get_fee := fun _ _ _ => 1/1000
    sell_alt := fun _ _ => some 1
    buy_alt := fun _ _ _ => some 80 }

/-- Environment of the worked example. -/
def exampleEnv : Env :=
  { manager := exampleManager
    config := exampleConfig
    random_choice := fun l => l.headD ("") }

/-- Worked-example state: holding `A`, one pair `A -> B`, plus one stale
ledger entry left over from an earlier cycle. -/
def exampleState : TraderState :=
  { current_coin := some ("A")
    pairs := [examplePair]
    best_ratios := [((("A"), ("X")), 7)] }

/-- A variant of the example exchange whose sell leg always fails. -/
def failSellManager : BinanceAPIManager :=
  { exampleManager with sell_alt := fun _ _ => none }

/-- Environment whose sell leg always fails. -/
def failSellEnv : Env := { exampleEnv with manager := failSellManager }

/-- State holding `B`, used to exercise threshold recalibration. -/
def exampleStateB : TraderState :=
  { current_coin := some ("B"), pairs := [examplePair], best_ratios := [] }

/-- State with no held coin, used to exercise the bootstrap. -/
def emptyState : TraderState :=
  { current_coin := none, pairs := [], best_ratios := [] }

/-- Environment configured with the valid initial coin `B`. -/
def exampleEnvCfg : Env :=
  { exampleEnv with config := { exampleConfig with CURRENT_COIN_SYMBOL := ("B") } }

/-- Environment configured with an unsupported initial coin `Z`. -/
def exampleEnvBad : Env :=
  { exampleEnv with config := { exampleConfig with CURRENT_COIN_SYMBOL := ("Z") } }

/-- The advantage `scout` computes for the worked example's pair (held
price `100`, candidate price `80`, calibration ratio `0.2`); its value is
`1.0375`. -/
def exampleAdvantage : ℚ := pair_advantage exampleEnv 100 80 (1/5) examplePair

/-- The state after the worked example's cycle: holding `B`, the pair
recalibrated at `100 / 80`, the ledger rebuilt from this cycle alone. -/
def exampleStateAfter : TraderState :=
  { current_coin := some ("B")
    pairs := [{ from_coin := coinA, to_coin := coinB, ratio := some (100/80) }]
    best_ratios := [((("A"), ("B")), exampleAdvantage)] }

/-- The worked example's pair recalibrated at `1.3` instead of `0.2`. -/
def examplePair2 : Pair := { from_coin := coinA, to_coin := coinB, ratio := some (13/10) }

/-- The advantage for the `1.3`-calibrated variant; its value is `-0.0625`. -/
def exampleAdvantage2 : ℚ := pair_advantage exampleEnv 100 80 (13/10) examplePair2

/-- State holding `A` with the `1.3`-calibrated pair. -/
def exampleState2 : TraderState :=
  { current_coin := some ("A"), pairs := [examplePair2], best_ratios := [] }

/-- The state after scouting `exampleState2`: no transition, ledger merged. -/
def exampleState2After : TraderState :=
  { current_coin := some ("A")
    pairs := [examplePair2]
    best_ratios := [((("A"), ("B")), exampleAdvantage2)] }

/-- The state after the worked example's cycle when the sell leg fails:
holdings and ratios untouched, but the ledger rebuilt from this cycle. -/
def exampleStateAbortedAfter : TraderState :=
  { current_coin := some ("A")
    pairs := [examplePair]
    best_ratios := [((("A"), ("B")), exampleAdvantage)] }

/-- The uncalibrated pair `A -> B`. -/
def uncalPair : Pair := { from_coin := coinA, to_coin := coinB, ratio := none }

/-- State holding `A` whose only pair is uncalibrated. -/
def uncalState : TraderState :=
  { current_coin := some ("A"), pairs := [uncalPair], best_ratios := [] }

/-- The same state with the uncalibrated pair removed. -/
def uncalRemovedState : TraderState :=
  { current_coin := some ("A"), pairs := [], best_ratios := [] }

/-! ### Retry-loop lemmas -/

/-- If the first successful buy attempt is attempt `N`, the retry loop
started at attempt `i ≤ N` returns that fill as soon as the fuel reaches
attempt `N`. -/
theorem buy_retry_succeeds (buys : Nat → Option ℚ) (N : Nat) (p : ℚ)
    (hN : buys N = some p) (hbefore : ∀ k, k < N → buys k = none) :
    ∀ fuel i, i ≤ N → N < i + fuel → buy_retry buys i fuel = some p := by
  intro fuel
  induction fuel with
  | zero => intro i _ hlt; omega
  | succ f ih =>
    intro i hi hlt
    rcases Nat.lt_or_ge i N with hiN | hiN
    · have hb : buys i = none := hbefore i hiN
      simp only [buy_retry, hb]
      exact ih (i + 1) hiN (by omega)
    · have heq : i = N := le_antisymm hi hiN
      subst heq
      simp only [buy_retry, hN]

/-- While every attempt the fuel can reach still fails, the retry loop is
still looping. -/
theorem buy_retry_exhausts (buys : Nat → Option ℚ) (N : Nat)
    (hbefore : ∀ k, k < N → buys k = none) :
    ∀ fuel i, i + fuel ≤ N → buy_retry buys i fuel = none := by
  intro fuel
  induction fuel with
  | zero => intro i _; simp [buy_retry]
  | succ f ih =>
    intro i h
    have hb : buys i = none := hbefore i (by omega)
    simp only [buy_retry, hb]
    exact ih (i + 1) (by omega)

/-! ### Claim theorems -/

/-- Claim C3: when the sell leg returns no result, the transition executor
returns immediately and the state — held asset and every pair's
calibration ratio — is exactly the pre-attempt state. -/
theorem transaction_sell_failure_preserves_state (env : Env) (fuel : Nat)
    (st : TraderState) (pair : Pair)
    (h : env.manager.sell_alt pair.from_coin env.config.BRIDGE = none) :
    transaction_through_bridge env fuel st pair = TransitionResult.aborted st := by
  simp [transaction_through_bridge, h]

/-- Witness for C3 at a concrete failing-sell environment. -/
theorem transaction_sell_failure_preserves_state_witness :
    transaction_through_bridge failSellEnv 1 exampleState examplePair
      = TransitionResult.aborted exampleState :=
  transaction_sell_failure_preserves_state failSellEnv 1 exampleState examplePair rfl

/-- Claim C4: once the sell leg has succeeded, the executor keeps retrying
the buy leg — with fuel not yet past the first successful attempt `N` it
is still looping, never aborted — and with fuel beyond `N` it terminates,
records the destination as held, and recalibrates at the fill price of
that first successful attempt. -/
theorem transaction_buy_retries_until_success (env : Env) (st : TraderState)
    (pair : Pair) (N : Nat) (p : ℚ)
    (hsell : env.manager.sell_alt pair.from_coin env.config.BRIDGE ≠ none)
    (hN : env.manager.buy_alt pair.to_coin env.config.BRIDGE N = some p)
    (hbefore : ∀ k, k < N → env.manager.buy_alt pair.to_coin env.config.BRIDGE k = none) :
    (∀ fuel, N < fuel →
      transaction_through_bridge env fuel st pair =
        TransitionResult.completed
          (update_trade_threshold env
            { st with current_coin := some pair.to_coin.symbol } (some p))) ∧
    (∀ fuel, fuel ≤ N →
      transaction_through_bridge env fuel st pair = TransitionResult.looping) := by
  constructor
  · intro fuel hf
    have hb := buy_retry_succeeds _ N p hN hbefore fuel 0 (Nat.zero_le N) (by omega)
    simp [transaction_through_bridge, hsell, hb]
  · intro fuel hf
    have hb := buy_retry_exhausts _ N hbefore fuel 0 (by omega)
    simp [transaction_through_bridge, hsell, hb]

/-- Witness for C4: in the worked example the buy fills on attempt `0` at
price `80`, so with fuel `1` the executor completes, holding `B` with
recalibrated thresholds. -/
theorem transaction_buy_retries_until_success_witness :
    transaction_through_bridge exampleEnv 1 exampleState examplePair =
      TransitionResult.completed
        (update_trade_threshold exampleEnv
          { exampleState with current_coin := some examplePair.to_coin.symbol }
          (some 80)) :=
  (transaction_buy_retries_until_success exampleEnv exampleState examplePair 0 80
      (by decide) rfl (fun k hk => absurd hk (Nat.not_lt_zero k))).1 1 (by decide)

/-- Claim C7: after recalibration with held coin `cc` at price `p`, the
pair table keeps its length, a pair whose destination is another coin is
unchanged, a pair whose destination is `cc` but whose source price is
unavailable keeps its previous ratio, and a pair whose destination is `cc`
with source price `fp` gets ratio `fp / p`. -/
theorem update_trade_threshold_frame (env : Env) (st : TraderState) (p : ℚ)
    (cc : String) (i : Nat) (old new : Pair) (fp : ℚ)
    (hcc : st.current_coin = some cc)
    (hold : st.pairs.get? i = some old)
    (hnew : (update_trade_threshold env st (some p)).pairs.get? i = some new) :
    ((update_trade_threshold env st (some p)).pairs.length = st.pairs.length) ∧
    (old.to_coin.symbol ≠ cc → new = old) ∧
    (old.to_coin.symbol = cc →
      env.manager.get_ticker_price (ticker_symbol old.from_coin env.config.BRIDGE) = none →
      new = old) ∧
    (old.to_coin.symbol = cc →
      env.manager.get_ticker_price (ticker_symbol old.from_coin env.config.BRIDGE) = some fp →
      new = { old with ratio := some (fp / p) }) := by
  simp only [update_trade_threshold] at hnew ⊢
  rw [List.get?_map, hold] at hnew
  simp only [Option.map_some', Option.some_inj] at hnew
  refine ⟨by simp, ?_, ?_, ?_⟩
  · intro hne
    rw [hcc] at hnew
    simp only [Option.some_inj, hne, if_false] at hnew
    exact hnew.symm
  · intro heq hnone
    rw [hcc] at hnew
    simp only [heq, Option.some_inj, if_true, hnone] at hnew
    exact hnew.symm
  · intro heq hsome
    rw [hcc] at hnew
    simp only [heq, Option.some_inj, if_true, hsome] at hnew
    exact hnew.symm

/-- Witness for C7: recalibrating while holding `B` at price `80` rewrites
the `A -> B` pair's ratio to `100 / 80`. -/
theorem update_trade_threshold_frame_witness :
    ((update_trade_threshold exampleEnv exampleStateB (some 80)).pairs.length
        = exampleStateB.pairs.length) ∧
    (examplePair.to_coin.symbol ≠ ("B") →
      { from_coin := coinA, to_coin := coinB, ratio := some (100/80) } = examplePair) ∧
    (examplePair.to_coin.symbol = ("B") →
      exampleEnv.manager.get_ticker_price
        (ticker_symbol examplePair.from_coin exampleEnv.config.BRIDGE) = none →
      { from_coin := coinA, to_coin := coinB, ratio := some (100/80) } = examplePair) ∧
    (examplePair.to_coin.symbol = ("B") →
      exampleEnv.manager.get_ticker_price
        (ticker_symbol examplePair.from_coin exampleEnv.config.BRIDGE) = some 100 →
      ({ from_coin := coinA, to_coin := coinB, ratio := some (100/80) } : Pair)
        = { examplePair with ratio := some (100 / 80) }) :=
  update_trade_threshold_frame exampleEnv exampleStateB 80 ("B") 0 examplePair
    { from_coin := coinA, to_coin := coinB, ratio := some (100/80) } 100 rfl rfl rfl

/-- Claim C8: on first run with no held coin recorded, an unconfigured
symbol leads to a random pick that is both recorded as held and purchased
against the bridge, while a configured, supported symbol is recorded as
held with no purchase. -/
theorem initialize_current_coin_spec (env : Env) (st : TraderState)
    (hnone : st.current_coin = none) :
    (env.config.CURRENT_COIN_SYMBOL = ("") →
      env.random_choice env.config.SUPPORTED_COIN_LIST ∈ env.config.SUPPORTED_COIN_LIST →
      initialize_current_coin env st =
        InitResult.ok
          { st with current_coin := some (env.random_choice env.config.SUPPORTED_COIN_LIST) }
          (some (env.random_choice env.config.SUPPORTED_COIN_LIST))) ∧
    (env.config.CURRENT_COIN_SYMBOL ≠ ("") →
      env.config.CURRENT_COIN_SYMBOL ∈ env.config.SUPPORTED_COIN_LIST →
      initialize_current_coin env st =
        InitResult.ok { st with current_coin := some env.config.CURRENT_COIN_SYMBOL } none) := by
  constructor
  · intro hcfg hmem
    simp [initialize_current_coin, hnone, hcfg, hmem]
  · intro hcfg hmem
    simp [initialize_current_coin, hnone, hcfg, hmem]

/-- Witness for C8: unconfigured bootstrap picks and purchases `A`;
bootstrap configured with `B` records it without purchasing. -/
theorem initialize_current_coin_spec_witness :
    (initialize_current_coin exampleEnv emptyState =
      InitResult.ok
        { emptyState with
            current_coin := some (exampleEnv.random_choice exampleEnv.config.SUPPORTED_COIN_LIST) }
        (some (exampleEnv.random_choice exampleEnv.config.SUPPORTED_COIN_LIST))) ∧
    (initialize_current_coin exampleEnvCfg emptyState =
      InitResult.ok
        { emptyState with current_coin := some exampleEnvCfg.config.CURRENT_COIN_SYMBOL }
        none) :=
  ⟨(initialize_current_coin_spec exampleEnv emptyState rfl).1 rfl (by decide),
   (initialize_current_coin_spec exampleEnvCfg emptyState rfl).2 (by decide) (by decide)⟩

/-- Claim C9: a configured initial symbol that is not among the supported
coins makes the bootstrap terminate fatally: nothing is recorded as held
and no purchase is performed. -/
theorem initialize_current_coin_fatal (env : Env) (st : TraderState)
    (hnone : st.current_coin = none)
    (hcfg : env.config.CURRENT_COIN_SYMBOL ≠ (""))
    (hmem : env.config.CURRENT_COIN_SYMBOL ∉ env.config.SUPPORTED_COIN_LIST) :
    initialize_current_coin env st = InitResult.fatal := by
  simp [initialize_current_coin, hnone, hcfg, hmem]

/-- Witness for C9 with unsupported configured symbol `Z`. -/
theorem initialize_current_coin_fatal_witness :
    initialize_current_coin exampleEnvBad emptyState = InitResult.fatal :=
  initialize_current_coin_fatal exampleEnvBad emptyState rfl (by decide) (by decide)

/-! ### Scout-cycle lemmas -/

/-- Reaching any uncalibrated pair whose destination is enabled and priced
makes the whole `ratio_dict` construction fail. -/
theorem build_ratio_dict_none_of_uncalibrated (env : Env) (ccp : ℚ) :
    ∀ l : List Pair, ∀ pair ∈ l, pair.to_coin.enabled = true →
      env.manager.get_ticker_price (ticker_symbol pair.to_coin env.config.BRIDGE) ≠ none →
      pair.ratio = none →
      build_ratio_dict env ccp l = none := by
  intro l
  induction l with
  | nil => intro pair h; simp at h
  | cons q rest ih =>
    intro pair hmem hen hticker hratio
    rcases List.mem_cons.mp hmem with heq | hmem2
    · subst heq
      rcases hq : env.manager.get_ticker_price (ticker_symbol pair.to_coin env.config.BRIDGE)
        with _ | ocp
      · exact absurd hq hticker
      · simp [build_ratio_dict, hen, hq, hratio]
    · have hrest := ih pair hmem2 hen hticker hratio
      rcases henq : q.to_coin.enabled with _ | _
      · simp [build_ratio_dict, henq, hrest]
      · rcases htq : env.manager.get_ticker_price (ticker_symbol q.to_coin env.config.BRIDGE)
          with _ | ocp
        · simp [build_ratio_dict, henq, htq, hrest]
        · rcases hrq : q.ratio with _ | r
          · simp [build_ratio_dict, henq, htq, hrq]
          · simp [build_ratio_dict, henq, htq, hrq, hrest]

/-- Once the held coin, its price and the advantage dict are fixed, `scout`
is `scout_after_dict`. -/
theorem scout_eq_after_dict (env : Env) (fuel : Nat) (st : TraderState)
    (cc : String) (ccp : ℚ) (dict : List (Pair × ℚ))
    (hcc : st.current_coin = some cc)
    (hccp : env.manager.get_ticker_price (cc ++ env.config.BRIDGE.symbol) = some ccp)
    (hdict : build_ratio_dict env ccp (get_pairs_from st cc) = some dict) :
    scout env fuel st = scout_after_dict env fuel st dict := by
  unfold scout
  rw [hcc]
  simp only [hccp, hdict]

/-- Claim C1, amended: an uncalibrated pair leaving the held coin is never
given an advantage, never selected, and never treated as ratio `0` — but
it is not skipped either: as soon as the scouting loop reaches it (its
destination being enabled and priced), the whole cycle aborts with a
`TypeError`, so the cycle produces no candidate set at all. -/
theorem scout_uncalibrated_crashes (env : Env) (fuel : Nat) (st : TraderState)
    (cc : String) (ccp : ℚ) (pair : Pair)
    (hcc : st.current_coin = some cc)
    (hccp : env.manager.get_ticker_price (cc ++ env.config.BRIDGE.symbol) = some ccp)
    (hmem : pair ∈ get_pairs_from st cc)
    (hen : pair.to_coin.enabled = true)
    (hticker : env.manager.get_ticker_price (ticker_symbol pair.to_coin env.config.BRIDGE) ≠ none)
    (hratio : pair.ratio = none) :
    scout env fuel st = ScoutResult.crash := by
  have hdict := build_ratio_dict_none_of_uncalibrated env ccp (get_pairs_from st cc)
    pair hmem hen hticker hratio
  unfold scout
  rw [hcc]
  simp only [hccp, hdict]

/-- Counterexample to C1 as stated: the uncalibrated pair is not excluded
from the cycle while the cycle carries on — with the pair present the
cycle dies with a `TypeError`, whereas with the pair removed the same
cycle completes normally. -/
theorem scout_uncalibrated_not_skipped :
    scout exampleEnv 1 uncalState = ScoutResult.crash ∧
    scout exampleEnv 1 uncalRemovedState = ScoutResult.ok none uncalRemovedState :=
  ⟨rfl, rfl⟩

/-- Witness for the amended C1 at the concrete uncalibrated state. -/
theorem scout_uncalibrated_crashes_witness :
    scout exampleEnv 1 uncalState = ScoutResult.crash :=
  scout_uncalibrated_crashes exampleEnv 1 uncalState ("A") 100 uncalPair rfl rfl
    (by decide) rfl (by decide) rfl

/-- The fold of `max_by_value` never drops below its starting value. -/
theorem le_max_by_value (xs : List (Pair × ℚ)) : ∀ x, x.2 ≤ (max_by_value x xs).2 := by
  induction xs with
  | nil => intro x; exact le_refl _
  | cons y ys ih =>
    intro x
    have hunf : max_by_value x (y :: ys) = max_by_value (if x.2 < y.2 then y else x) ys := rfl
    rw [hunf]
    rcases lt_or_le x.2 y.2 with h | h
    · rw [if_pos h]
      exact le_of_lt (lt_of_lt_of_le h (ih y))
    · rw [if_neg (not_lt.mpr h)]
      exact ih x

/-- `max_by_value` picks the first entry attaining the maximum: the list
splits around it, everything before it strictly smaller, everything after
it no larger. -/
theorem max_by_value_split (xs : List (Pair × ℚ)) : ∀ x, ∃ l1 l2,
    x :: xs = l1 ++ (max_by_value x xs) :: l2 ∧
    (∀ e ∈ l1, e.2 < (max_by_value x xs).2) ∧
    (∀ e ∈ l2, e.2 ≤ (max_by_value x xs).2) := by
  induction xs with
  | nil =>
    intro x
    refine ⟨[], [], rfl, ?_, ?_⟩ <;> intro e he <;> simp at he
  | cons y ys ih =>
    intro x
    have hunf : max_by_value x (y :: ys) = max_by_value (if x.2 < y.2 then y else x) ys := rfl
    rcases lt_or_le x.2 y.2 with h | h
    · rw [hunf, if_pos h]
      obtain ⟨l1, l2, hsplit, hl1, hl2⟩ := ih y
      refine ⟨x :: l1, l2, ?_, ?_, hl2⟩
      · rw [List.cons_append, ← hsplit]
      · intro e he
        rcases List.mem_cons.mp he with rfl | he2
        · exact lt_of_lt_of_le h (le_max_by_value ys y)
        · exact hl1 e he2
    · rw [hunf, if_neg (not_lt.mpr h)]
      obtain ⟨l1, l2, hsplit, hl1, hl2⟩ := ih x
      cases l1 with
      | nil =>
        simp only [List.nil_append] at hsplit
        injection hsplit with h1 h2
        refine ⟨[], y :: ys, ?_, ?_, ?_⟩
        · rw [← h1]; rfl
        · intro e he; simp at he
        · intro e he
          rcases List.mem_cons.mp he with rfl | he2
          · rw [← h1]; exact h
          · exact hl2 e (h2 ▸ he2)
      | cons z l1t =>
        injection hsplit with h1 h2
        subst h1
        have hxm : x.2 < (max_by_value x ys).2 :=
          hl1 x (List.mem_cons_self _ _)
        refine ⟨x :: y :: l1t, l2, ?_, ?_, hl2⟩
        · rw [List.append_eq] at h2
          rw [List.cons_append, List.cons_append, ← h2]
        · intro e he
          rcases List.mem_cons.mp he with rfl | he2
          · exact hxm
          · rcases List.mem_cons.mp he2 with rfl | he3
            · exact lt_of_le_of_lt h hxm
            · exact hl1 e (List.mem_cons.mpr (Or.inr he3))

/-- A decomposition of a filtered list lifts to a decomposition of the
original list. -/
theorem filter_split {α : Type} (p : α → Bool) :
    ∀ (l a1 a2 : List α) (x : α), l.filter p = a1 ++ x :: a2 →
      ∃ l1 l2, l = l1 ++ x :: l2 ∧ l1.filter p = a1 ∧ l2.filter p = a2 := by
  intro l
  induction l with
  | nil =>
    intro a1 a2 x h
    rw [List.filter_nil] at h
    cases a1 <;> simp at h
  | cons q rest ih =>
    intro a1 a2 x h
    by_cases hq : p q
    · rw [List.filter_cons, if_pos hq] at h
      cases a1 with
      | nil =>
        simp only [List.nil_append] at h
        injection h with h1 h2
        subst h1
        exact ⟨[], rest, rfl, rfl, h2⟩
      | cons b t =>
        injection h with h1 h2
        subst h1
        obtain ⟨l1, l2, hl, hf1, hf2⟩ := ih t a2 x h2
        refine ⟨q :: l1, l2, by rw [hl, List.cons_append], ?_, hf2⟩
        rw [List.filter_cons, if_pos hq, hf1]
    · rw [List.filter_cons, if_neg hq] at h
      obtain ⟨l1, l2, hl, hf1, hf2⟩ := ih a1 a2 x h
      refine ⟨q :: l1, l2, by rw [hl, List.cons_append], ?_, hf2⟩
      rw [List.filter_cons, if_neg hq, hf1]

/-- When the positive-advantage filter of the dict is nonempty, the
selected entry is the first maximal entry of the whole dict, it is
positive, everything before it is strictly smaller, and everything after
it is no larger. -/
theorem selected_first_max (dict : List (Pair × ℚ)) (e : Pair × ℚ) (es : List (Pair × ℚ))
    (hfil : dict.filter (fun x => 0 < x.2) = e :: es) :
    ∃ l1 l2, dict = l1 ++ (max_by_value e es) :: l2 ∧
      0 < (max_by_value e es).2 ∧
      (∀ x ∈ l1, x.2 < (max_by_value e es).2) ∧
      (∀ x ∈ l2, x.2 ≤ (max_by_value e es).2) := by
  obtain ⟨f1, f2, hsplit, hf1, hf2⟩ := max_by_value_split es e
  rw [hsplit] at hfil
  obtain ⟨l1, l2, hl, hfil1, hfil2⟩ := filter_split _ dict f1 f2 _ hfil
  have hmpos : (0 : ℚ) < (max_by_value e es).2 := by
    have hmem : (max_by_value e es) ∈ dict.filter (fun x => 0 < x.2) := by
      rw [hfil]
      exact List.mem_append.mpr (Or.inr (List.mem_cons_self _ _))
    simpa using List.of_mem_filter hmem
  refine ⟨l1, l2, hl, hmpos, ?_, ?_⟩
  · intro x hx
    by_cases hp : (0 : ℚ) < x.2
    · exact hf1 x (by rw [← hfil1]; exact List.mem_filter.mpr ⟨hx, by simpa using hp⟩)
    · exact lt_of_le_of_lt (not_lt.mp hp) hmpos
  · intro x hx
    by_cases hp : (0 : ℚ) < x.2
    · exact hf2 x (by rw [← hfil2]; exact List.mem_filter.mpr ⟨hx, by simpa using hp⟩)
    · exact le_of_lt (lt_of_le_of_lt (not_lt.mp hp) hmpos)

/-- A singleton with positive advantage passes the profitability filter. -/
theorem filter_pos_singleton (x : Pair × ℚ) (h : 0 < x.2) :
    List.filter (fun e => 0 < e.2) [x] = [x] := by
  simp [List.filter_cons, h]

/-- A singleton with non-positive advantage is filtered away. -/
theorem filter_nonpos_singleton (x : Pair × ℚ) (h : ¬ 0 < x.2) :
    List.filter (fun e => 0 < e.2) [x] = [] := by
  simp [List.filter_cons, h]

/-! ### Concrete evaluations of the worked example -/

/-- The worked example's advantage is `1.25 - 0.0125 - 0.2 = 1.0375`. -/
theorem example_advantage_value : exampleAdvantage = 83/80 := by
  unfold exampleAdvantage pair_advantage
  norm_num [exampleEnv, exampleManager, exampleConfig]

/-- With calibration `1.3` the advantage is `1.25 - 0.0125 - 1.3 = -0.0625`. -/
theorem example_advantage2_value : exampleAdvantage2 = -(1/16) := by
  unfold exampleAdvantage2 pair_advantage
  norm_num [exampleEnv, exampleManager, exampleConfig]

/-- Evaluation of the example's advantage dict. -/
theorem example_dict : build_ratio_dict exampleEnv 100 (get_pairs_from exampleState ("A"))
    = some [(examplePair, exampleAdvantage)] := rfl

/-- Evaluation of the `1.3`-calibrated advantage dict. -/
theorem example_dict2 : build_ratio_dict exampleEnv 100 (get_pairs_from exampleState2 ("A"))
    = some [(examplePair2, exampleAdvantage2)] := rfl

/-- The failing-sell environment quotes and computes the same dict. -/
theorem example_dict_fail : build_ratio_dict failSellEnv 100 (get_pairs_from exampleState ("A"))
    = some [(examplePair, exampleAdvantage)] := rfl

/-- Full evaluation of the worked example's cycle: the executor is invoked
on the pair, the trade completes, and the final state holds `B` with a
recalibrated pair and a rebuilt ledger. -/
theorem example_scout_run :
    scout exampleEnv 1 exampleState = ScoutResult.ok (some examplePair) exampleStateAfter := by
  have hpos : (0 : ℚ) < exampleAdvantage := by
    rw [example_advantage_value]; norm_num
  have h1 := scout_eq_after_dict exampleEnv 1 exampleState ("A") 100
    [(examplePair, exampleAdvantage)] rfl rfl example_dict
  rw [h1]
  unfold scout_after_dict
  rw [filter_pos_singleton (examplePair, exampleAdvantage) hpos]
  rfl

/-- Full evaluation of the `1.3`-calibrated cycle: no entry survives the
profitability filter, no transition happens, the ledger is merged. -/
theorem example_scout_run2 :
    scout exampleEnv 1 exampleState2 = ScoutResult.ok none exampleState2After := by
  have hneg : ¬ (0 : ℚ) < exampleAdvantage2 := by
    rw [example_advantage2_value]; norm_num
  have h1 := scout_eq_after_dict exampleEnv 1 exampleState2 ("A") 100
    [(examplePair2, exampleAdvantage2)] rfl rfl example_dict2
  rw [h1]
  unfold scout_after_dict
  rw [filter_nonpos_singleton (examplePair2, exampleAdvantage2) hneg]
  rfl

/-- Full evaluation of the worked example's cycle when the sell leg fails:
the executor is invoked but aborts, holdings and ratios stay unchanged,
and the ledger is still rebuilt from this cycle alone. -/
theorem example_scout_run_fail :
    scout failSellEnv 1 exampleState = ScoutResult.ok (some examplePair) exampleStateAbortedAfter := by
  have hpos : (0 : ℚ) < exampleAdvantage := by
    rw [example_advantage_value]; norm_num
  have h1 := scout_eq_after_dict failSellEnv 1 exampleState ("A") 100
    [(examplePair, exampleAdvantage)] rfl rfl example_dict_fail
  rw [h1]
  unfold scout_after_dict
  rw [filter_pos_singleton (examplePair, exampleAdvantage) hpos]
  rfl

/-- Claim C2: a cycle that completes normally invokes the transition
executor exactly when some evaluated candidate has positive advantage;
the invoked pair is the first candidate attaining the strictly maximal
advantage (everything before it in evaluation order is strictly smaller,
nothing after it is larger); and when no candidate is profitable the held
asset is unchanged by the cycle. -/
theorem scout_transition_iff_positive (env : Env) (fuel : Nat) (st : TraderState)
    (cc : String) (ccp : ℚ) (dict : List (Pair × ℚ)) (inv : Option Pair) (st1 : TraderState)
    (hcc : st.current_coin = some cc)
    (hccp : env.manager.get_ticker_price (cc ++ env.config.BRIDGE.symbol) = some ccp)
    (hdict : build_ratio_dict env ccp (get_pairs_from st cc) = some dict)
    (hrun : scout env fuel st = ScoutResult.ok inv st1) :
    (inv.isSome = true ↔ ∃ x ∈ dict, 0 < x.2) ∧
    (∀ p, inv = some p → ∃ a l1 l2, dict = l1 ++ (p, a) :: l2 ∧ 0 < a ∧
      (∀ x ∈ l1, x.2 < a) ∧ (∀ x ∈ l2, x.2 ≤ a)) ∧
    ((¬ ∃ x ∈ dict, 0 < x.2) → st1.current_coin = st.current_coin) := by
  rw [scout_eq_after_dict env fuel st cc ccp dict hcc hccp hdict] at hrun
  unfold scout_after_dict at hrun
  rcases hfil : dict.filter (fun x => 0 < x.2) with _ | ⟨e, es⟩
  · rw [hfil] at hrun
    injection hrun with h1 h2
    have hnone : ¬ ∃ x ∈ dict, 0 < x.2 := by
      rintro ⟨x, hx, hpx⟩
      have := List.filter_eq_nil.mp hfil x hx
      simp only [decide_eq_true_eq] at this
      exact this hpx
    refine ⟨?_, ?_, ?_⟩
    · rw [← h1]
      exact ⟨fun hf => absurd hf (by simp), fun hx => absurd hx hnone⟩
    · intro p hp
      rw [← h1] at hp
      exact absurd hp (by simp)
    · intro _
      rw [← h2]
  · rw [hfil] at hrun
    have hepos : ∃ x ∈ dict, 0 < x.2 := by
      have hmem : e ∈ dict.filter (fun x => 0 < x.2) := by
        rw [hfil]; exact List.mem_cons_self _ _
      exact ⟨e, List.mem_of_mem_filter hmem, by simpa using List.of_mem_filter hmem⟩
    obtain ⟨l1, l2, hsplit, hmpos, hl1, hl2⟩ := selected_first_max dict e es hfil
    rcases htr : transaction_through_bridge env fuel st (max_by_value e es).1
      with st2 | _ | st2
    · simp only [htr] at hrun
      injection hrun with h1 h2
      refine ⟨?_, ?_, ?_⟩
      · rw [← h1]
        exact ⟨fun _ => hepos, fun _ => rfl⟩
      · intro p hp
        rw [← h1, Option.some_inj] at hp
        refine ⟨(max_by_value e es).2, l1, l2, ?_, hmpos, hl1, hl2⟩
        rw [← hp, Prod.mk.eta]
        exact hsplit
      · intro hx; exact absurd hepos hx
    · simp only [htr] at hrun
      exact ScoutResult.noConfusion hrun
    · simp only [htr] at hrun
      injection hrun with h1 h2
      refine ⟨?_, ?_, ?_⟩
      · rw [← h1]
        exact ⟨fun _ => hepos, fun _ => rfl⟩
      · intro p hp
        rw [← h1, Option.some_inj] at hp
        refine ⟨(max_by_value e es).2, l1, l2, ?_, hmpos, hl1, hl2⟩
        rw [← hp, Prod.mk.eta]
        exact hsplit
      · intro hx; exact absurd hepos hx

/-- Witness for C2 at the worked example: the executor is invoked, the
invoked pair is the unique (hence first maximal) profitable candidate. -/
theorem scout_transition_iff_positive_witness :
    ((some examplePair).isSome = true ↔
      ∃ x ∈ [(examplePair, exampleAdvantage)], 0 < x.2) ∧
    (∀ p, some examplePair = some p →
      ∃ a l1 l2, ([(examplePair, exampleAdvantage)] : List (Pair × ℚ)) = l1 ++ (p, a) :: l2 ∧
        0 < a ∧ (∀ x ∈ l1, x.2 < a) ∧ (∀ x ∈ l2, x.2 ≤ a)) ∧
    ((¬ ∃ x ∈ [(examplePair, exampleAdvantage)], 0 < x.2) →
      exampleStateAfter.current_coin = exampleState.current_coin) :=
  scout_transition_iff_positive exampleEnv 1 exampleState ("A") 100
    [(examplePair, exampleAdvantage)] (some examplePair) exampleStateAfter
    rfl rfl example_dict example_scout_run

/-- `ledger_set` never yields the empty ledger. -/
theorem ledger_set_ne_nil (l : List ((String × String) × ℚ)) (k : String × String) (v : ℚ) :
    ledger_set l k v ≠ [] := by
  unfold ledger_set
  by_cases h : ledger_contains l k
  · rw [if_pos h]
    intro hmap
    rw [List.map_eq_nil] at hmap
    subst hmap
    simp [ledger_contains] at h
  · rw [if_neg h]
    simp

/-- Merging a nonempty batch of advantages (or merging into a nonempty
ledger) leaves the ledger nonempty. -/
theorem update_best_ratios_ne_nil :
    ∀ (dict : List (Pair × ℚ)) (l : List ((String × String) × ℚ)),
      l ≠ [] ∨ dict ≠ [] → update_best_ratios l dict ≠ [] := by
  intro dict
  induction dict with
  | nil =>
    intro l h
    rcases h with h | h
    · simpa [update_best_ratios] using h
    · exact absurd rfl h
  | cons x rest ih =>
    intro l _
    obtain ⟨pair, v⟩ := x
    rcases hg : ledger_get l (pair.from_coin.symbol, pair.to_coin.symbol) with _ | old
    · simp only [update_best_ratios, hg]
      exact ih _ (Or.inl (ledger_set_ne_nil _ _ _))
    · simp only [update_best_ratios, hg]
      exact ih _ (Or.inl (ledger_set_ne_nil _ _ _))

/-- Counterexample to C5 as stated: the worked example's cycle performs a
successful transition — the final state holds the destination `B` — yet
when that cycle completes the Best-Ratio Ledger is not empty. -/
theorem scout_ledger_nonempty_after_transition :
    scout exampleEnv 1 exampleState = ScoutResult.ok (some examplePair) exampleStateAfter ∧
    exampleStateAfter.current_coin = some ("B") ∧
    exampleStateAfter.best_ratios ≠ [] :=
  ⟨example_scout_run, rfl, by simp [exampleStateAfter]⟩

/-- Claim C5, amended: immediately after invoking the transition executor
the ledger is cleared, but before the cycle completes the repopulation
loop merges this cycle's advantages into the cleared ledger — so at cycle
completion the ledger holds exactly this cycle's advantages and is
nonempty, not empty. -/
theorem scout_ledger_after_transition (env : Env) (fuel : Nat) (st : TraderState)
    (cc : String) (ccp : ℚ) (dict : List (Pair × ℚ)) (p : Pair) (st1 : TraderState)
    (hcc : st.current_coin = some cc)
    (hccp : env.manager.get_ticker_price (cc ++ env.config.BRIDGE.symbol) = some ccp)
    (hdict : build_ratio_dict env ccp (get_pairs_from st cc) = some dict)
    (hrun : scout env fuel st = ScoutResult.ok (some p) st1) :
    st1.best_ratios = update_best_ratios [] dict ∧ st1.best_ratios ≠ [] := by
  rw [scout_eq_after_dict env fuel st cc ccp dict hcc hccp hdict] at hrun
  unfold scout_after_dict at hrun
  rcases hfil : dict.filter (fun x => 0 < x.2) with _ | ⟨e, es⟩
  · rw [hfil] at hrun
    injection hrun with h1 h2
    exact absurd h1.symm (by simp)
  · rw [hfil] at hrun
    have hdictne : dict ≠ [] := by
      intro hd; rw [hd] at hfil; simp at hfil
    rcases htr : transaction_through_bridge env fuel st (max_by_value e es).1
      with st2 | _ | st2
    · simp only [htr] at hrun
      injection hrun with h1 h2
      subst h2
      exact ⟨rfl, update_best_ratios_ne_nil dict [] (Or.inr hdictne)⟩
    · simp only [htr] at hrun
      exact ScoutResult.noConfusion hrun
    · simp only [htr] at hrun
      injection hrun with h1 h2
      subst h2
      exact ⟨rfl, update_best_ratios_ne_nil dict [] (Or.inr hdictne)⟩

/-- Witness for the amended C5 at the worked example. -/
theorem scout_ledger_after_transition_witness :
    exampleStateAfter.best_ratios = update_best_ratios [] [(examplePair, exampleAdvantage)] ∧
    exampleStateAfter.best_ratios ≠ [] :=
  scout_ledger_after_transition exampleEnv 1 exampleState ("A") 100
    [(examplePair, exampleAdvantage)] examplePair exampleStateAfter
    rfl rfl example_dict example_scout_run

/-- Claim C6: every evaluated candidate's advantage follows
`(raw - fee * multiplier * raw) - calibration`, with `raw` the held price
over the candidate price and `fee` the sum of the sell-leg and buy-leg
fees; on the worked example (held `100`, candidate `80`, fee `0.001` per
leg, multiplier `5`) calibration `0.2` yields advantage `1.0375 > 0` and
the cycle trades, while calibration `1.3` yields `-0.0625` and the cycle
leaves the held asset unchanged. -/
theorem scout_advantage_formula :
    (∀ (env : Env) (ccp : ℚ) (pairs : List Pair) (dict : List (Pair × ℚ))
        (q : Pair) (a ocp r : ℚ),
      build_ratio_dict env ccp pairs = some dict →
      (q, a) ∈ dict →
      env.manager.get_ticker_price (ticker_symbol q.to_coin env.config.BRIDGE) = some ocp →
      q.ratio = some r →
      a = (ccp / ocp
            - (env.manager.get_fee q.from_coin env.config.BRIDGE true
                + env.manager.get_fee q.to_coin env.config.BRIDGE false)
              * env.config.SCOUT_MULTIPLIER * (ccp / ocp)) - r) ∧
    exampleAdvantage = 1.0375 ∧
    scout exampleEnv 1 exampleState = ScoutResult.ok (some examplePair) exampleStateAfter ∧
    exampleAdvantage2 = -0.0625 ∧
    scout exampleEnv 1 exampleState2 = ScoutResult.ok none exampleState2After ∧
    exampleState2After.current_coin = exampleState2.current_coin := by
  refine ⟨?_, ?_, example_scout_run, ?_, example_scout_run2, rfl⟩
  · intro env ccp pairs
    induction pairs with
    | nil =>
      intro dict q a ocp r hdict hmem _ _
      injection hdict with h
      rw [← h] at hmem
      simp at hmem
    | cons w rest ih =>
      intro dict q a ocp r hdict hmem hticker hratio
      simp only [build_ratio_dict] at hdict
      by_cases hw : w.to_coin.enabled
      · rw [if_pos hw] at hdict
        rcases htw : env.manager.get_ticker_price (ticker_symbol w.to_coin env.config.BRIDGE)
          with _ | ocpw
        · rw [htw] at hdict
          exact ih dict q a ocp r hdict hmem hticker hratio
        · rw [htw] at hdict
          rcases hrw : w.ratio with _ | rw1
          · rw [hrw] at hdict
            exact Option.noConfusion hdict
          · rw [hrw] at hdict
            rw [Option.map_eq_some'] at hdict
            obtain ⟨dict', hrest, hcons⟩ := hdict
            rw [← hcons] at hmem
            rcases List.mem_cons.mp hmem with hhead | htail
            · have hq : q = w := congrArg Prod.fst hhead
              have ha : a = pair_advantage env ccp ocpw rw1 w := congrArg Prod.snd hhead
              rw [hq] at hticker
              rw [hticker] at htw
              injection htw with hocp
              rw [hq] at hratio
              rw [hratio] at hrw
              injection hrw with hr
              rw [ha, hq, ← hocp, ← hr]
              rfl
            · exact ih dict' q a ocp r hrest htail hticker hratio
      · rw [if_neg hw] at hdict
        exact ih dict q a ocp r hdict hmem hticker hratio
  · rw [example_advantage_value]; norm_num
  · rw [example_advantage2_value]; norm_num

/-- Claim C10: in a cycle that invokes the transition executor but whose
sell leg fails, no trade happens — held asset and every calibration ratio
are unchanged — yet the ledger accumulated since the last trade is still
discarded: at cycle completion it holds exactly the advantages of the
pairs evaluated in this cycle. -/
theorem scout_ledger_cleared_despite_abort (env : Env) (fuel : Nat) (st : TraderState)
    (cc : String) (ccp : ℚ) (dict : List (Pair × ℚ)) (p : Pair) (st1 : TraderState)
    (hcc : st.current_coin = some cc)
    (hccp : env.manager.get_ticker_price (cc ++ env.config.BRIDGE.symbol) = some ccp)
    (hdict : build_ratio_dict env ccp (get_pairs_from st cc) = some dict)
    (hrun : scout env fuel st = ScoutResult.ok (some p) st1)
    (hsell : env.manager.sell_alt p.from_coin env.config.BRIDGE = none) :
    st1.current_coin = st.current_coin ∧ st1.pairs = st.pairs ∧
    st1.best_ratios = update_best_ratios [] dict := by
  rw [scout_eq_after_dict env fuel st cc ccp dict hcc hccp hdict] at hrun
  unfold scout_after_dict at hrun
  rcases hfil : dict.filter (fun x => 0 < x.2) with _ | ⟨e, es⟩
  · rw [hfil] at hrun
    injection hrun with h1 h2
    exact absurd h1.symm (by simp)
  · rw [hfil] at hrun
    rcases htr : transaction_through_bridge env fuel st (max_by_value e es).1
      with st2 | _ | st2
    · simp only [htr] at hrun
      injection hrun with h1 h2
      have hbest : (max_by_value e es).1 = p := Option.some_inj.mp h1
      have htr2 : transaction_through_bridge env fuel st (max_by_value e es).1
          = TransitionResult.aborted st := by
        rw [hbest]
        simp [transaction_through_bridge, hsell]
      rw [htr] at htr2
      injection htr2 with h3
      subst h2
      subst h3
      exact ⟨rfl, rfl, rfl⟩
    · simp only [htr] at hrun
      exact ScoutResult.noConfusion hrun
    · simp only [htr] at hrun
      injection hrun with h1 h2
      have hbest : (max_by_value e es).1 = p := Option.some_inj.mp h1
      have htr2 : transaction_through_bridge env fuel st (max_by_value e es).1
          = TransitionResult.aborted st := by
        rw [hbest]
        simp [transaction_through_bridge, hsell]
      rw [htr] at htr2
      exact TransitionResult.noConfusion htr2

/-- Witness for C10 at the failing-sell worked example: the stale ledger
entry from an earlier cycle is gone even though no trade occurred. -/
theorem scout_ledger_cleared_despite_abort_witness :
    exampleStateAbortedAfter.current_coin = exampleState.current_coin ∧
    exampleStateAbortedAfter.pairs = exampleState.pairs ∧
    exampleStateAbortedAfter.best_ratios
      = update_best_ratios [] [(examplePair, exampleAdvantage)] :=
  scout_ledger_cleared_despite_abort failSellEnv 1 exampleState ("A") 100
    [(examplePair, exampleAdvantage)] examplePair exampleStateAbortedAfter
    rfl rfl example_dict_fail example_scout_run_fail rfl

end AutoTrader
